import Mathlib

/-!
Shallow embedding of the gtfs-parser crate (src/lib.rs, src/error.rs,
src/gtfs_serde.rs, src/structures/*) and proofs about its specified
behaviour.

Modelling conventions:
* Rust machine integers (`u8`, `u16`, `u64`) are modelled as `Nat`; where the
  source arithmetic can wrap, the reduction modulo `2 ^ w` is explicit.
* Rust `String`/`&str` values fed to the clock-time codec are modelled as
  `List Char` (Rust `split`/`trim_start` act on characters); values fed to
  the color codec are modelled as `List Nat` of UTF-8 bytes (the source
  slices by byte index there, so byte structure matters).
* A Rust function that can panic is modelled with result type `Option _`,
  where `none` is the panic outcome.
* `HashMap<String, V>` is modelled as an association list with
  overwrite-on-insert; the source only uses insert / get / get_mut /
  per-value iteration, all of which are order-insensitive per key.
* `Vec::sort_by`, documented as a stable sort, is modelled by a stable
  insertion sort; any two stable sorts of the same list under the same
  total key order produce the same list.
-/

namespace Gtfs

/-! ## Enumerations (src/structures/{routes,stop_times,stops,trips}.rs) -/

/-- Route type enumeration of src/structures/routes.rs (`RouteType`).
`Other` carries the raw `u16` code. -/
inductive RouteType where
  | Bus
  | Tramway
  | Subway
  | Rail
  | Ferry
  | CableCar
  | Gondola
  | Funicular
  | Coach
  | Air
  | Taxi
  | Other (n : Nat)
  deriving DecidableEq, Repr

/-- Continuous pickup / drop-off enumeration of src/structures/routes.rs. -/
inductive ContinuousPickupDropOff where
  | Continuous
  | NotAvailable
  | ArrangeByPhone
  | CoordinateWithDriver
  deriving DecidableEq, Repr

/-- Pickup / drop-off enumeration of src/structures/stop_times.rs. -/
inductive PickupDropOffType where
  | Regular
  | NotAvailable
  | ArrangeByPhone
  | CoordinateWithDriver
  deriving DecidableEq, Repr

/-- Direction enumeration of src/structures/trips.rs. -/
inductive Direction where
  | Outbound
  | Inbound
  deriving DecidableEq, Repr

/-- Bikes-allowed enumeration of src/structures/trips.rs. -/
inductive BikesAllowed where
  | NoBikeInfo
  | AtLeastOneBike
  | NoBikesAllowed
  deriving DecidableEq, Repr

/-- Wheelchair boarding enumeration of src/structures/stops.rs. -/
inductive WheelchairBoardingAvailable where
  | InformationNotAvailable
  | Available
  | NotAvailable
  deriving DecidableEq, Repr

/-- Stop location type enumeration of src/structures/stops.rs. -/
inductive StopLocationType where
  | StopPoint
  | StopArea
  | StationEntrance
  | GenericNode
  | BoardingArea
  deriving DecidableEq, Repr

/-- `#[derivative(Default)]` marks `NotAvailable` as the default variant of
`ContinuousPickupDropOff` (src/structures/routes.rs). -/
def cpdoDefault : ContinuousPickupDropOff := .NotAvailable

/-- `#[derivative(Default)]` marks `Regular` as the default variant of
`PickupDropOffType` (src/structures/stop_times.rs). -/
def pdoDefault : PickupDropOffType := .Regular

/-- Deserializer of `ContinuousPickupDropOff`
(src/structures/routes.rs, `impl Deserialize`): matches the text codes
"0".."3", any other text falls through to `NotAvailable`. Total: the Rust
code always returns `Ok`. -/
def cpdoDeserialize (s : String) : ContinuousPickupDropOff :=
  match s with
  | "0" => .Continuous
  | "1" => .NotAvailable
  | "2" => .ArrangeByPhone
  | "3" => .CoordinateWithDriver
  | _ => .NotAvailable

/-- Deserializer of `PickupDropOffType`
(src/structures/stop_times.rs, `impl Deserialize`): matches the text codes
"0".."3", any other text falls through to `Regular`. Total. -/
def pdoDeserialize (s : String) : PickupDropOffType :=
  match s with
  | "0" => .Regular
  | "1" => .NotAvailable
  | "2" => .ArrangeByPhone
  | "3" => .CoordinateWithDriver
  | _ => .Regular

/-- Deserializer of `RouteType` (src/structures/routes.rs): the source
matches on the pair `(i, i / 100)` with `i : u16`; the match arms are
reproduced here in source order as an if-chain, which has the same
first-arm-wins semantics. -/
def routeTypeDeserialize (i : Nat) : RouteType :=
  let hundreds := i / 100
  if i = 0 ∨ hundreds = 9 then .Tramway
  else if i = 1 ∨ hundreds = 4 then .Subway
  else if i = 2 ∨ hundreds = 1 then .Rail
  else if i = 3 ∨ hundreds = 7 ∨ hundreds = 8 then .Bus
  else if i = 4 ∨ hundreds = 10 ∨ hundreds = 12 then .Ferry
  else if i = 5 then .CableCar
  else if i = 6 ∨ hundreds = 13 then .Gondola
  else if i = 7 ∨ hundreds = 14 then .Funicular
  else if hundreds = 2 then .Coach
  else if hundreds = 11 then .Air
  else if hundreds = 15 then .Taxi
  else .Other i

/-- Serializer of `RouteType` (src/structures/routes.rs, `impl Serialize`). -/
def routeTypeSerialize : RouteType → Nat
  | .Tramway => 0
  | .Subway => 1
  | .Rail => 2
  | .Bus => 3
  | .Ferry => 4
  | .CableCar => 5
  | .Gondola => 6
  | .Funicular => 7
  | .Coach => 200
  | .Air => 1100
  | .Taxi => 1500
  | .Other i => i

/-- Specification-side band table of the extended route-type codes: maps a
hundreds digit to its named mode, trying the bands in the order the source's
match arms list them (first match wins). `none` means the band is unmapped. -/
def firstBand (h : Nat) : Option RouteType :=
  if h = 9 then some .Tramway
  else if h = 4 then some .Subway
  else if h = 1 then some .Rail
  else if h = 7 ∨ h = 8 then some .Bus
  else if h = 10 ∨ h = 12 then some .Ferry
  else if h = 13 then some .Gondola
  else if h = 14 then some .Funicular
  else if h = 2 then some .Coach
  else if h = 11 then some .Air
  else if h = 15 then some .Taxi
  else none

/-! ## Scalar codecs (src/gtfs_serde.rs) -/

/-- Diagnostic line context of src/error.rs (`LineError`): header names and
the offending row's raw field values. In the source both are `Vec<String>`;
"absent" values are realized as the empty vector. -/
structure LineError where
  headers : List String
  values : List String
  deriving DecidableEq, Repr

/-- Error enumeration of src/error.rs (`Error`), restricted to the variants
the modelled code paths construct. `CSVError` keeps the underlying cause as
a message string; `InvalidTime` carries the original characters, and
`InvalidColor` the original UTF-8 bytes, matching the representations used
by the respective codec models. `ParseIntFailure` models the
`std::num::ParseIntError` that `parse_time` surfaces through
`de::Error::custom`. -/
inductive Err where
  | FileNotFound (s : String)
  | FileReadError (filename : String)
  | CSVError (filename : String) (source : String) (line_in_error : Option LineError)
  | ReferenceError (id : String)
  | InvalidColor (s : List Nat)
  | InvalidTime (s : List Char)
  | ParseIntFailure
  deriving DecidableEq, Repr

/-- Chrono `NaiveDate`, reduced to its calendar fields. -/
structure NaiveDate where
  year : Nat
  month : Nat
  day : Nat
  deriving DecidableEq, Repr

/-- Date encoder of src/gtfs_serde.rs (`serialize_date`): the source writes
`format!("{}{}{}", date.year(), date.month(), date.day())`, i.e. plain
decimal renderings concatenated with no zero padding. -/
def serialize_date (d : NaiveDate) : String :=
  toString d.year ++ toString d.month ++ toString d.day

/-- Unicode white-space test used by Rust `str::trim_start`
(`char::is_whitespace`, property White_Space). -/
def rustIsWhitespace (c : Char) : Bool :=
  c.toNat = 0x09 || c.toNat = 0x0A || c.toNat = 0x0B || c.toNat = 0x0C ||
  c.toNat = 0x0D || c.toNat = 0x20 || c.toNat = 0x85 || c.toNat = 0xA0 ||
  c.toNat = 0x1680 || (0x2000 ≤ c.toNat && c.toNat ≤ 0x200A) ||
  c.toNat = 0x2028 || c.toNat = 0x2029 || c.toNat = 0x202F ||
  c.toNat = 0x205F || c.toNat = 0x3000

/-- Rust `str::trim_start` on a character list. -/
def trimStart (s : List Char) : List Char :=
  s.dropWhile rustIsWhitespace

/-- Rust `str::split(sep)` on a character list: `""` yields `[""]`, and every
separator occurrence opens a new (possibly empty) piece. -/
def splitOnChar (sep : Char) : List Char → List (List Char)
  | [] => [[]]
  | x :: xs =>
    if x = sep then [] :: splitOnChar sep xs
    else
      match splitOnChar sep xs with
      | [] => [[x]]
      | h :: t => (x :: h) :: t

/-- ASCII decimal digit test (Rust digit check of integer `from_str`). -/
def decimalDigit (c : Char) : Bool :=
  48 ≤ c.toNat && c.toNat ≤ 57

/-- Decimal value of a character list of digits, most significant first. -/
def digitsVal (s : List Char) : Nat :=
  s.foldl (fun a c => a * 10 + (c.toNat - 48)) 0

/-- Rust `u64::from_str` (used as `str::parse::<u64>()` in `parse_time`):
an optional leading '+', then one or more decimal digits, failing on empty
input, on any non-digit, and on overflow past `u64::MAX`. -/
def parseU64 (s : List Char) : Option Nat :=
  let t := if s.head? = some '+' then s.tail else s
  if t = [] then none
  else if t.all decimalDigit then
    if digitsVal t < 2 ^ 64 then some (digitsVal t) else none
  else none

/-- `parse_time` of src/gtfs_serde.rs: integer-parses the three parts and
combines them as `hours * 3600 + minutes * 60 + seconds` in `u64`
arithmetic (hence the reduction modulo `2 ^ 64`). The source indexes
`time_parts[0..2]` after its caller checked the length, so the model is
defined on exactly-three-part lists. -/
def parse_time : List (List Char) → Option Nat
  | [h, m, s] => do
    let hv ← parseU64 h
    let mv ← parseU64 m
    let sv ← parseU64 s
    pure ((hv * 3600 + mv * 60 + sv) % 2 ^ 64)
  | _ => none

/-- `deserialize_time` of src/gtfs_serde.rs: trims leading white space,
splits on ':', demands exactly three parts (else `Error::InvalidTime`
carrying the original text), then defers to `parse_time`, surfacing its
parse failure as a decode error. -/
def deserialize_time (s : List Char) : Except Err Nat :=
  let parts := splitOnChar ':' (trimStart s)
  if parts.length ≠ 3 then .error (.InvalidTime s)
  else
    match parse_time parts with
    | some v => .ok v
    | none => .error .ParseIntFailure

/-- RGB color triple (the `rgb::RGB8` used by the source), channels as
`Nat` values below 256. -/
structure RGB8 where
  r : Nat
  g : Nat
  b : Nat
  deriving DecidableEq, Repr

/-- Rust `str::is_char_boundary` for a UTF-8 byte list: true at 0, at the
end, and at any byte that is not a continuation byte (`0x80..0xBF`). -/
def isCharBoundary (s : List Nat) (i : Nat) : Bool :=
  if i = 0 then true
  else
    match s.get? i with
    | some b => !(128 ≤ b && b < 192)
    | none => i = s.length

/-- Rust string slice `&s[i..j]`: defined (as `some`) only when `i ≤ j`,
`j` is in range, and both ends are char boundaries; otherwise the source
panics, modelled as `none`. -/
def sliceStr (s : List Nat) (i j : Nat) : Option (List Nat) :=
  if i ≤ j && isCharBoundary s i && isCharBoundary s j then
    some ((s.drop i).take (j - i))
  else none

/-- Hexadecimal value of one ASCII byte, `none` for a non-hex byte. -/
def hexDigitVal (b : Nat) : Option Nat :=
  if 48 ≤ b ∧ b ≤ 57 then some (b - 48)
  else if 65 ≤ b ∧ b ≤ 70 then some (b - 55)
  else if 97 ≤ b ∧ b ≤ 102 then some (b - 87)
  else none

/-- Fold of hex digits with the `u8` overflow check of `from_str_radix`. -/
def hexDigitsVal : List Nat → Option Nat
  | [] => none
  | l =>
    l.foldl
      (fun acc b => do
        let a ← acc
        let d ← hexDigitVal b
        let v := a * 16 + d
        if v < 256 then some v else none)
      (some 0)

/-- Rust `u8::from_str_radix(s, 16)` on UTF-8 bytes: optional leading '+',
then one or more hex digits; any non-ASCII byte belongs to a non-digit
character and fails the parse. -/
def fromStrRadix16U8 (s : List Nat) : Option Nat :=
  match s with
  | 43 :: rest => hexDigitsVal rest
  | _ => hexDigitsVal s

/-- `parse_color` of src/gtfs_serde.rs. The source checks `s.len() != 6`
(byte length), then takes the byte slices `&s[0..2]`, `&s[2..4]`, `&s[4..6]`
in that order, each followed by its hex parse; a slice at a non-boundary
index panics (`none`), a failed hex parse yields `Error::InvalidColor`. -/
def parse_color (s : List Nat) : Option (Except Err RGB8) :=
  if s.length ≠ 6 then some (.error (.InvalidColor s))
  else
    match sliceStr s 0 2 with
    | none => none
    | some s1 =>
      match fromStrRadix16U8 s1 with
      | none => some (.error (.InvalidColor s))
      | some r =>
        match sliceStr s 2 4 with
        | none => none
        | some s2 =>
          match fromStrRadix16U8 s2 with
          | none => some (.error (.InvalidColor s))
          | some g =>
            match sliceStr s 4 6 with
            | none => none
            | some s3 =>
              match fromStrRadix16U8 s3 with
              | none => some (.error (.InvalidColor s))
              | some b => some (.ok ⟨r, g, b⟩)

/-! ## Archive index and table reads (src/lib.rs) -/

/-- The 3-byte byte order mark constant of src/lib.rs. -/
def BYTE_ORDER_MARK : List Nat := [0xEF, 0xBB, 0xBF]

/-- Association-list lookup, modelling `HashMap::get` (first binding of the
key; maps built below keep at most one binding per key). -/
def lookupAM {β : Type} : List (String × β) → String → Option β
  | [], _ => none
  | (k, v) :: rest, key => if key = k then some v else lookupAM rest key

/-- Association-list insert with overwrite, modelling `HashMap::insert`:
replaces the first binding of the key, else appends. -/
def insertAM {β : Type} : List (String × β) → String → β → List (String × β)
  | [], key, v => [(key, v)]
  | (k, w) :: rest, key, v =>
    if key = k then (k, v) :: rest else (k, w) :: insertAM rest key v

/-- `to_map` of src/lib.rs: collects `(e.id(), e)` pairs into a map, later
elements overwriting earlier ones with the same id. -/
def to_map {β : Type} (idOf : β → String) (elements : List β) : List (String × β) :=
  elements.foldl (fun m e => insertAM m (idOf e) e) []

/-- `GtfsReader::read_gtfs` of src/lib.rs: resolves the fixed table name
through `file_mappings` with `.unwrap()` — resolution failure is a panic
(`none`), not an error value — then defers to `read_objects`, abstracted
here as the argument `readObjects`. -/
def read_gtfs {α : Type} (readObjects : String → Nat → Except Err α)
    (file_mappings : List (String × Nat)) (filename : String) :
    Option (Except Err α) :=
  match lookupAM file_mappings filename with
  | some index => some (readObjects filename index)
  | none => none

/-- `GtfsReader::agencies` of src/lib.rs: `read_gtfs("agency.txt")`. -/
def agencies {α : Type} (readObjects : String → Nat → Except Err α)
    (file_mappings : List (String × Nat)) : Option (Except Err α) :=
  read_gtfs readObjects file_mappings "agency.txt"

/-- `GtfsReader::custom` of src/lib.rs: resolves the caller-supplied table
name through `file_mappings`, returning `Error::FileNotFound(filename)`
when it is unmapped. -/
def custom {α : Type} (readObjects : String → Nat → Except Err α)
    (file_mappings : List (String × Nat)) (filename : String) :
    Except Err α :=
  match lookupAM file_mappings filename with
  | some index => readObjects filename index
  | none => .error (.FileNotFound filename)

/-- Byte-level front end of `GtfsReader::read_objects` (src/lib.rs lines
289-302): `read_exact` of three bytes — failing with `FileReadError` when
the entry holds fewer — then either strips them (when they equal the byte
order mark) or chains them back in front of the remaining stream. The
result is the exact byte stream handed to the tokenizer. -/
def effectiveBytes (filename : String) (stream : List Nat) :
    Except Err (List Nat) :=
  match stream with
  | b0 :: b1 :: b2 :: rest =>
    if [b0, b1, b2] = BYTE_ORDER_MARK then .ok rest
    else .ok (b0 :: b1 :: b2 :: rest)
  | _ => .error (.FileReadError filename)

/-- A table read at byte granularity: the tokenize-and-decode stage is a
deterministic function of the bytes handed to it, abstracted as `decode`. -/
def readTable {R : Type} (decode : List Nat → R) (filename : String)
    (stream : List Nat) : Except Err R :=
  (effectiveBytes filename stream).map decode

/-- One raw row as the record loop of `read_objects` sees it: either a
tokenization failure carrying the underlying cause, or the successfully
tokenized field values. -/
inductive RowInput where
  | tokFail (source : String)
  | fields (vals : List String)
  deriving DecidableEq, Repr

/-- Record loop of `GtfsReader::read_objects` (src/lib.rs lines 318-347),
with the row deserializer abstracted as `dec`. A tokenization failure
becomes a `CSVError` whose `LineError` has the captured headers and
`values: vec![]`; a deserialization failure becomes a `CSVError` whose
`LineError` has the captured headers and the tokenized row's fields. -/
def read_objects_rows {α : Type} (dec : List String → Except String α)
    (filename : String) (headers : List String) :
    List RowInput → Except Err (List α)
  | [] => .ok []
  | .tokFail src :: _ =>
    .error (.CSVError filename src (some ⟨headers, []⟩))
  | .fields vals :: rest =>
    match dec vals with
    | .error msg =>
      .error (.CSVError filename msg (some ⟨headers, vals⟩))
    | .ok obj => (read_objects_rows dec filename headers rest).map (obj :: ·)

/-- Row decoder of a schema with two required string columns, the shape of
the crate's own `TripBrigade { trip_id, brigade_id }` doc-test struct: a row
missing the second column fails with a missing-field error. -/
def decTwoColumns : List String → Except String (String × String)
  | a :: b :: _ => .ok (a, b)
  | _ => .error "missing field"

/-- Specification-side shape of a table-decode failure's diagnostic
payload: a `CSVError` on the requested file whose headers are the header
row, and whose value list is empty for a pre-tokenization failure on some
input row, or the exact field list of some tokenized input row on which the
row decoder failed with the recorded cause. -/
def lineErrorSpec {α : Type} (dec : List String → Except String α)
    (fn : String) (hs : List String) (rows : List RowInput) : Err → Prop
  | .CSVError fn2 src (some le) =>
    fn2 = fn ∧ le.headers = hs ∧
      ((le.values = [] ∧ RowInput.tokFail src ∈ rows) ∨
       (RowInput.fields le.values ∈ rows ∧ dec le.values = .error src))
  | _ => False

/-! ## Data model of the relational linker
(src/structures/{stops,trips,stop_times}.rs) -/

/-- `Stop` of src/structures/stops.rs. -/
structure Stop where
  id : String
  code : Option String
  name : Option String
  description : Option String
  latitude : Option Float
  longitude : Option Float
  zone_id : Option String
  url : Option String
  location_type : StopLocationType
  parent_station : Option String
  timezone : Option String
  wheelchair_boarding : WheelchairBoardingAvailable
  level_id : Option String
  platform_code : Option String

/-- `RawStopTime` of src/structures/stop_times.rs (clock times already
decoded to seconds, as in the source struct). -/
structure RawStopTime where
  trip_id : String
  arrival_time : Option Nat
  departure_time : Option Nat
  stop_id : String
  stop_sequence : Nat
  stop_headsign : Option String
  pickup_type : PickupDropOffType
  drop_off_type : PickupDropOffType
  continuous_pickup : ContinuousPickupDropOff
  continuous_drop_off : ContinuousPickupDropOff
  shape_dist_traveled : Option Float
  timepoint : Bool

/-- `StopTime` of src/structures/stop_times.rs; the `Arc<Stop>` is modelled
by the stop value itself. -/
structure StopTime where
  arrival_time : Option Nat
  stop : Stop
  departure_time : Option Nat
  pickup_type : PickupDropOffType
  drop_off_type : PickupDropOffType
  stop_sequence : Nat
  stop_headsign : Option String
  continuous_pickup : ContinuousPickupDropOff
  continuous_drop_off : ContinuousPickupDropOff
  shape_dist_traveled : Option Float
  timepoint : Bool

/-- `StopTime::from` of src/structures/stop_times.rs. -/
def StopTime.fromRaw (r : RawStopTime) (stop : Stop) : StopTime where
  arrival_time := r.arrival_time
  stop := stop
  departure_time := r.departure_time
  pickup_type := r.pickup_type
  drop_off_type := r.drop_off_type
  stop_sequence := r.stop_sequence
  stop_headsign := r.stop_headsign
  continuous_pickup := r.continuous_pickup
  continuous_drop_off := r.continuous_drop_off
  shape_dist_traveled := r.shape_dist_traveled
  timepoint := r.timepoint

/-- `RawTrip` of src/structures/trips.rs. -/
structure RawTrip where
  route_id : String
  id : String
  service_id : String
  headsign : Option String
  short_name : Option String
  direction_id : Option Direction
  block_id : Option String
  shape_id : Option String
  wheelchair_accessible : WheelchairBoardingAvailable
  bikes_allowed : BikesAllowed

/-- `Trip` of src/structures/trips.rs. -/
structure Trip where
  route_id : String
  id : String
  service_id : String
  headsign : Option String
  short_name : Option String
  direction_id : Option Direction
  block_id : Option String
  shape_id : Option String
  wheelchair_accessible : WheelchairBoardingAvailable
  bikes_allowed : BikesAllowed
  stop_times : List StopTime

/-- `impl From<RawTrip> for Trip` of src/structures/trips.rs: carries every
scalar field over and starts with an empty stop-time sequence. -/
def Trip.fromRaw (rt : RawTrip) : Trip where
  route_id := rt.route_id
  id := rt.id
  service_id := rt.service_id
  headsign := rt.headsign
  short_name := rt.short_name
  direction_id := rt.direction_id
  block_id := rt.block_id
  shape_id := rt.shape_id
  wheelchair_accessible := rt.wheelchair_accessible
  bikes_allowed := rt.bikes_allowed
  stop_times := []

/-- The stop map built in `GtfsReader::trips` (src/lib.rs lines 252-256):
`(s.id, Arc::new(s))` pairs collected into a map. -/
def stopsMap (stops : List Stop) : List (String × Stop) :=
  stops.foldl (fun m s => insertAM m s.id s) []

/-- The initial trip map of `GtfsReader::trips` (src/lib.rs line 258):
`to_map(raw_trips.into_iter().map(Trip::from))`. -/
def tripsMap (raw_trips : List RawTrip) : List (String × Trip) :=
  to_map Trip.id (raw_trips.map Trip.fromRaw)

/-- The stop-time fold of `GtfsReader::trips` (src/lib.rs lines 260-270):
for each raw stop time in input order, look up its trip (else
`ReferenceError(trip_id)`), look up its stop (else
`ReferenceError(stop_id)`), and push the converted stop time onto the
trip's sequence. -/
def linkStopTimes (stops : List (String × Stop)) :
    List (String × Trip) → List RawStopTime → Except Err (List (String × Trip))
  | trips, [] => .ok trips
  | trips, raw :: rest =>
    match lookupAM trips raw.trip_id with
    | none => .error (.ReferenceError raw.trip_id)
    | some trip =>
      match lookupAM stops raw.stop_id with
      | none => .error (.ReferenceError raw.stop_id)
      | some stop =>
        linkStopTimes stops
          (insertAM trips raw.trip_id
            { trip with stop_times := trip.stop_times ++ [StopTime.fromRaw raw stop] })
          rest

/-- Stable insertion of a stop time into a list sorted by `stop_sequence`:
the element goes before the first entry of strictly-or-equally greater key
it does not exceed, i.e. after every earlier-inserted element of equal key. -/
def sortInsert (x : StopTime) : List StopTime → List StopTime
  | [] => [x]
  | y :: ys =>
    if x.stop_sequence ≤ y.stop_sequence then x :: y :: ys
    else y :: sortInsert x ys

/-- Stable sort by `stop_sequence`, modelling `Vec::sort_by(|a, b|
a.stop_sequence.cmp(&b.stop_sequence))` of src/lib.rs line 272-275
(`sort_by` is documented as stable; a stable sort under a total key order
is unique, so this insertion sort computes the same list). -/
def sortStable : List StopTime → List StopTime
  | [] => []
  | x :: xs => sortInsert x (sortStable xs)

/-- The per-trip sorting pass of `GtfsReader::trips`. -/
def sortTrips (trips : List (String × Trip)) : List (String × Trip) :=
  trips.map fun p => (p.1, { p.2 with stop_times := sortStable p.2.stop_times })

/-- `GtfsReader::trips` of src/lib.rs (lines 248-278), after the three raw
tables have been decoded: build the stop and trip maps, fold the raw stop
times in, then sort each trip's sequence. `Trip::create_trips` of
src/structures/trips.rs is the same computation followed by dropping keys. -/
def createTrips (raw_trips : List RawTrip) (raw_stop_times : List RawStopTime)
    (stops : List Stop) : Except Err (List (String × Trip)) :=
  match linkStopTimes (stopsMap stops) (tripsMap raw_trips) raw_stop_times with
  | .error e => .error e
  | .ok m => .ok (sortTrips m)

/-- Specification-side list of the stop times pushed onto trip `tid`, in raw
input order: the raw stop times of that trip, converted with their resolved
stop. -/
def pushedFor (stops : List (String × Stop)) (raws : List RawStopTime)
    (tid : String) : List StopTime :=
  raws.filterMap fun r =>
    if r.trip_id = tid then (lookupAM stops r.stop_id).map (StopTime.fromRaw r)
    else none

/-- Specification-side first reference failure of the stop-time fold: the
missing trip id of the first raw stop time whose trip is unknown, or its
missing stop id when the trip resolves but the stop does not. -/
def firstRefError (trips : List (String × Trip)) (stops : List (String × Stop)) :
    List RawStopTime → Option String
  | [] => none
  | raw :: rest =>
    match lookupAM trips raw.trip_id with
    | none => some raw.trip_id
    | some _ =>
      match lookupAM stops raw.stop_id with
      | none => some raw.stop_id
      | some _ => firstRefError trips stops rest

/-! ## Concrete fixtures used by witnesses -/

/-- A stop with only its id populated (all optional columns absent,
defaulted enumerations). -/
def mkStop (sid : String) : Stop :=
  ⟨sid, none, none, none, none, none, none, none, .StopPoint, none, none,
   .InformationNotAvailable, none, none⟩

/-- A raw trip with only its identifiers populated. -/
def rawTrip1 : RawTrip :=
  ⟨"route1", "trip1", "service1", none, none, none, none, none,
   .InformationNotAvailable, .NoBikeInfo⟩

/-- A raw stop time for the given trip, stop and sequence number. -/
def mkRawSt (tid sid : String) (seq : Nat) (arr : Nat) : RawStopTime :=
  ⟨tid, some arr, some arr, sid, seq, none, .Regular, .Regular,
   .NotAvailable, .NotAvailable, none, true⟩

def rt0 : List RawTrip := [rawTrip1]

/-- Two stop times of trip1 with equal `stop_sequence`, stop2 first. -/
def raws0 : List RawStopTime :=
  [mkRawSt "trip1" "stop2" 0 50400, mkRawSt "trip1" "stop3" 0 54000]

def stops0 : List Stop := [mkStop "stop2", mkStop "stop3"]

/-- The linked map of the fixture dataset. -/
def m0 : List (String × Trip) :=
  match createTrips rt0 raws0 stops0 with
  | .ok m => m
  | .error _ => []

/-- The linked trip1 of the fixture dataset. -/
def trip0 : Trip :=
  (lookupAM m0 "trip1").getD (Trip.fromRaw rawTrip1)

/-- A raw stop time whose trip id matches no trip of `rt0`. -/
def rawsBad : List RawStopTime := [mkRawSt "ghost" "stop2" 0 50400]

/-! ## Theorems -/

/-- C1, counterexample: the claim says a built-in accessor on an unmapped
table name returns a "not found" error and does not panic; on an archive
index with no mapping for `agency.txt`, the `agencies` accessor instead
panics (the `.unwrap()` in `read_gtfs`), modelled as `none`, so no error
value is ever returned on that path. -/
theorem read_gtfs_missing_mapping_panics :
    agencies (fun _ _ => Except.ok ([] : List Unit)) [] = none := rfl

/-- C1, amended: for every table name unmapped in the archive index, the
custom-schema entry point fails with `FileNotFound` naming the table, while
a built-in accessor (which resolves its fixed name with `.unwrap()`)
panics rather than returning an error. -/
theorem missing_table_read_amended {α : Type} (ro : String → Nat → Except Err α)
    (fm : List (String × Nat)) (name : String) (h : lookupAM fm name = none) :
    custom ro fm name = .error (.FileNotFound name) ∧
    read_gtfs ro fm name = none := by
  constructor <;> simp [custom, read_gtfs, h]

/-- Witness for the amended C1 statement on a concrete index that maps only
`routes.txt`. -/
theorem missing_table_read_amended_witness :
    custom (fun _ _ => Except.ok ([] : List Unit)) [("routes.txt", 0)] "agency.txt"
      = .error (.FileNotFound "agency.txt") ∧
    read_gtfs (fun _ _ => Except.ok ([] : List Unit)) [("routes.txt", 0)] "agency.txt"
      = none :=
  missing_table_read_amended _ _ _ (by decide)

/-- C5: the date encoder writes `format!("{}{}{}", year, month, day)` with
no zero padding, so the date 2021-01-02 encodes as "202112" rather than the
canonical "20210102"; decoding the encoder's output cannot recover the
original date, refuting the round-trip claim (the spec itself flags the
unpadded reconstruction as the bug pattern to avoid). -/
theorem serialize_date_unpadded :
    serialize_date ⟨2021, 1, 2⟩ = "202112" ∧
    "202112" ≠ "20210102" ∧
    ("202112" : String).length ≠ 8 := by
  refine ⟨rfl, by decide, by decide⟩

/-- C9, counterexample: the claim quantifies over every stream; for the
stream that itself begins with the mark, prepending a mark and reading does
not equal reading the stream directly, because only one mark is stripped.
With the tokenizer abstracted as the identity on bytes, the marked stream
`BOM ++ BOM` decodes to `BOM` while its unmarked version `BOM` decodes
to `[]`. -/
theorem bom_stream_counterexample :
    readTable (fun bs => bs) "stops.txt" (BYTE_ORDER_MARK ++ BYTE_ORDER_MARK)
      = .ok BYTE_ORDER_MARK ∧
    readTable (fun bs => bs) "stops.txt" BYTE_ORDER_MARK = .ok [] ∧
    (Except.ok BYTE_ORDER_MARK : Except Err (List Nat)) ≠ .ok [] := by
  refine ⟨rfl, rfl, fun h => ?_⟩
  simp [BYTE_ORDER_MARK] at h

/-- C9, amended: for every stream of at least three bytes that does not
itself begin with the byte order mark, reading it with a leading mark
yields exactly the read of the stream alone, and reading it without the
mark re-prepends the probed three bytes, so the tokenizer sees the stream
unchanged — no bytes lost or duplicated in either case, for any decoder. -/
theorem bom_strip_amended {R : Type} (decode : List Nat → R) (fn : String)
    (b0 b1 b2 : Nat) (rest : List Nat) (hne : [b0, b1, b2] ≠ BYTE_ORDER_MARK) :
    readTable decode fn (BYTE_ORDER_MARK ++ b0 :: b1 :: b2 :: rest)
      = readTable decode fn (b0 :: b1 :: b2 :: rest) ∧
    effectiveBytes fn (b0 :: b1 :: b2 :: rest) = .ok (b0 :: b1 :: b2 :: rest) ∧
    effectiveBytes fn (BYTE_ORDER_MARK ++ b0 :: b1 :: b2 :: rest)
      = .ok (b0 :: b1 :: b2 :: rest) := by
  have hne2 : ¬(b0 = 0xEF ∧ b1 = 0xBB ∧ b2 = 0xBF) := by
    simpa [BYTE_ORDER_MARK] using hne
  refine ⟨?_, ?_, ?_⟩ <;> simp [readTable, effectiveBytes, BYTE_ORDER_MARK, hne2]

/-- Witness for the amended C9 statement on the three-zero-byte stream. -/
theorem bom_strip_amended_witness :
    readTable (fun bs => bs) "routes.txt" (BYTE_ORDER_MARK ++ 0 :: 0 :: 0 :: [])
      = readTable (fun bs => bs) "routes.txt" (0 :: 0 :: 0 :: []) ∧
    effectiveBytes "routes.txt" (0 :: 0 :: 0 :: []) = .ok (0 :: 0 :: 0 :: []) ∧
    effectiveBytes "routes.txt" (BYTE_ORDER_MARK ++ 0 :: 0 :: 0 :: [])
      = .ok (0 :: 0 :: 0 :: []) :=
  bom_strip_amended _ _ 0 0 0 [] (by decide)

/-- C10: the color decoder is not total — on the 6-byte input consisting of
two three-byte UTF-8 characters (the bytes of two Euro signs), the byte
slice at position 2 does not fall on a character boundary and the source
panics instead of returning the invalid-color error; the model returns
`none` (panic). The third conjunct shows the intended error-free path on
the canonical "FF00A0" input for contrast. -/
theorem parse_color_panics_on_multibyte :
    parse_color [0xE2, 0x82, 0xAC, 0xE2, 0x82, 0xAC] = none ∧
    List.length [0xE2, 0x82, 0xAC, 0xE2, 0x82, 0xAC] = 6 ∧
    parse_color [70, 70, 48, 48, 65, 48] = some (.ok ⟨255, 0, 160⟩) := by
  refine ⟨rfl, rfl, rfl⟩

/-- Above the legacy range, the route-type deserializer is exactly the
first-match band table on the hundreds digit, defaulting to `Other`. -/
theorem routeTypeDeserialize_ge8 (i : Nat) (hi : 8 ≤ i) :
    routeTypeDeserialize i = (firstBand (i / 100)).getD (.Other i) := by
  have h0 : ¬(i = 0) := by omega
  have h1 : ¬(i = 1) := by omega
  have h2 : ¬(i = 2) := by omega
  have h3 : ¬(i = 3) := by omega
  have h4 : ¬(i = 4) := by omega
  have h5 : ¬(i = 5) := by omega
  have h6 : ¬(i = 6) := by omega
  have h7 : ¬(i = 7) := by omega
  simp only [routeTypeDeserialize, firstBand]
  by_cases c1 : i / 100 = 9
  · rw [if_pos (Or.inr c1), if_pos c1]; rfl
  · rw [if_neg (fun h => h.elim h0 c1), if_neg c1]
    by_cases c2 : i / 100 = 4
    · rw [if_pos (Or.inr c2), if_pos c2]; rfl
    · rw [if_neg (fun h => h.elim h1 c2), if_neg c2]
      by_cases c3 : i / 100 = 1
      · rw [if_pos (Or.inr c3), if_pos c3]; rfl
      · rw [if_neg (fun h => h.elim h2 c3), if_neg c3]
        by_cases c4 : i / 100 = 7 ∨ i / 100 = 8
        · rw [if_pos (Or.inr c4), if_pos c4]; rfl
        · rw [if_neg (fun h => h.elim h3 c4), if_neg c4]
          by_cases c5 : i / 100 = 10 ∨ i / 100 = 12
          · rw [if_pos (Or.inr c5), if_pos c5]; rfl
          · rw [if_neg (fun h => h.elim h4 c5), if_neg c5, if_neg h5]
            by_cases c6 : i / 100 = 13
            · rw [if_pos (Or.inr c6), if_pos c6]; rfl
            · rw [if_neg (fun h => h.elim h6 c6), if_neg c6]
              by_cases c7 : i / 100 = 14
              · rw [if_pos (Or.inr c7), if_pos c7]; rfl
              · rw [if_neg (fun h => h.elim h7 c7), if_neg c7]
                by_cases c8 : i / 100 = 2
                · rw [if_pos c8, if_pos c8]; rfl
                · rw [if_neg c8, if_neg c8]
                  by_cases c9 : i / 100 = 11
                  · rw [if_pos c9, if_pos c9]; rfl
                  · rw [if_neg c9, if_neg c9]
                    by_cases c10 : i / 100 = 15
                    · rw [if_pos c10, if_pos c10]; rfl
                    · rw [if_neg c10, if_neg c10]; rfl

/-- C7: the route-type codec. Legacy codes 0-7 map one-to-one to the eight
named modes; every code above the legacy range is bucketed by its hundreds
digit through the fixed band table with the first matching arm winning,
falling through to `Other` carrying the original number when no band
matches; re-encoding a banded result emits the canonical numeric code of
its named mode (0-7, 200, 1100 or 1500, losing the original extended
number), and re-encoding an `Other` value replays the original number. -/
theorem routeType_codec :
    (routeTypeDeserialize 0 = .Tramway ∧ routeTypeDeserialize 1 = .Subway ∧
     routeTypeDeserialize 2 = .Rail ∧ routeTypeDeserialize 3 = .Bus ∧
     routeTypeDeserialize 4 = .Ferry ∧ routeTypeDeserialize 5 = .CableCar ∧
     routeTypeDeserialize 6 = .Gondola ∧ routeTypeDeserialize 7 = .Funicular) ∧
    (∀ i < 8, ∀ j < 8, routeTypeDeserialize i = routeTypeDeserialize j → i = j) ∧
    (∀ i, 8 ≤ i → i < 2 ^ 16 →
      routeTypeDeserialize i = (firstBand (i / 100)).getD (.Other i)) ∧
    (routeTypeSerialize .Tramway = 0 ∧ routeTypeSerialize .Subway = 1 ∧
     routeTypeSerialize .Rail = 2 ∧ routeTypeSerialize .Bus = 3 ∧
     routeTypeSerialize .Ferry = 4 ∧ routeTypeSerialize .CableCar = 5 ∧
     routeTypeSerialize .Gondola = 6 ∧ routeTypeSerialize .Funicular = 7 ∧
     routeTypeSerialize .Coach = 200 ∧ routeTypeSerialize .Air = 1100 ∧
     routeTypeSerialize .Taxi = 1500) ∧
    (∀ n, routeTypeSerialize (.Other n) = n) ∧
    (∀ i m, 8 ≤ i → i < 2 ^ 16 → firstBand (i / 100) = some m →
      routeTypeSerialize (routeTypeDeserialize i) = routeTypeSerialize m) ∧
    (∀ i, 8 ≤ i → i < 2 ^ 16 → firstBand (i / 100) = none →
      routeTypeDeserialize i = .Other i) := by
  refine ⟨by decide, by decide, ?_, by decide, fun n => rfl, ?_, ?_⟩
  · intro i hi _
    exact routeTypeDeserialize_ge8 i hi
  · intro i m hi _ hb
    rw [routeTypeDeserialize_ge8 i hi, hb]
    rfl
  · intro i hi _ hb
    rw [routeTypeDeserialize_ge8 i hi, hb]
    rfl

/-- Witness for C7 at concrete codes: the banded extended code 1100 decodes
to `Air` and re-encodes to the canonical 1100; the unbanded code 1700
decodes to `Other 1700`. -/
theorem routeType_codec_witness :
    routeTypeSerialize (routeTypeDeserialize 1100) = routeTypeSerialize .Air ∧
    routeTypeDeserialize 1700 = .Other 1700 := by
  have h := routeType_codec
  exact ⟨h.2.2.2.2.2.1 1100 .Air (by decide) (by decide) (by decide),
         h.2.2.2.2.2.2 1700 (by decide) (by decide) (by decide)⟩

/-- C8: unknown textual codes on the closed enumerations fall back to the
designated default variant (no decode error: the decoders are total), and
unknown numeric codes on the open route-type enumeration are preserved as
`Other` carrying the raw number and re-encode to that same number. -/
theorem closed_open_enum_fallback :
    (∀ s : String, s ≠ "0" → s ≠ "1" → s ≠ "2" → s ≠ "3" →
      cpdoDeserialize s = cpdoDefault ∧ pdoDeserialize s = pdoDefault) ∧
    cpdoDefault = .NotAvailable ∧ pdoDefault = .Regular ∧
    (∀ i, 8 ≤ i → firstBand (i / 100) = none →
      routeTypeDeserialize i = .Other i ∧
      routeTypeSerialize (routeTypeDeserialize i) = i) := by
  refine ⟨?_, rfl, rfl, ?_⟩
  · intro s h0 h1 h2 h3
    constructor
    · unfold cpdoDeserialize
      split <;> simp_all [cpdoDefault]
    · unfold pdoDeserialize
      split <;> simp_all [pdoDefault]
  · intro i hi hb
    have h := routeTypeDeserialize_ge8 i hi
    rw [hb, Option.getD_none] at h
    refine ⟨h, ?_⟩
    rw [h]
    rfl

/-- Witness for C8 at the unknown closed-enumeration code "9" and the
unbanded open-enumeration code 1700. -/
theorem closed_open_enum_fallback_witness :
    (cpdoDeserialize "9" = cpdoDefault ∧ pdoDeserialize "9" = pdoDefault) ∧
    (routeTypeDeserialize 1700 = .Other 1700 ∧
     routeTypeSerialize (routeTypeDeserialize 1700) = 1700) :=
  ⟨closed_open_enum_fallback.1 "9" (by decide) (by decide) (by decide) (by decide),
   closed_open_enum_fallback.2.2.2 1700 (by decide) (by decide)⟩

/-- C4, counterexample: the tokenizer runs in flexible mode, so a malformed
row need not have as many fields as the header row; decoding the one-field
row ["trip1"] against the two-column header fails with a missing-field
error whose diagnostic payload has two headers but a single raw value —
the claimed length equality does not hold. -/
theorem line_error_length_counterexample :
    read_objects_rows decTwoColumns "trips.txt" ["trip_id", "brigade_id"]
        [.fields ["trip1"]]
      = .error (.CSVError "trips.txt" "missing field"
          (some ⟨["trip_id", "brigade_id"], ["trip1"]⟩)) ∧
    List.length ["trip_id", "brigade_id"] = 2 ∧
    List.length ["trip1"] = 1 := by
  refine ⟨rfl, rfl, rfl⟩

/-- C4, amended: every table-decode failure carries a `CSVError` whose
diagnostic payload holds exactly the header row's names; its raw-value list
is empty precisely on a failure before the row was tokenized, and on a
post-tokenization decode failure it holds exactly the offending row's
fields — whose count may differ from the header count because tokenization
is flexible. -/
theorem line_error_payload_amended {α : Type}
    (dec : List String → Except String α) (fn : String) (hs : List String)
    (rows : List RowInput) (e : Err)
    (h : read_objects_rows dec fn hs rows = .error e) :
    lineErrorSpec dec fn hs rows e := by
  induction rows with
  | nil => simp [read_objects_rows] at h
  | cons row rest ih =>
    cases row with
    | tokFail src =>
      simp only [read_objects_rows] at h
      injection h with h
      subst h
      simp [lineErrorSpec]
    | fields vals =>
      simp only [read_objects_rows] at h
      cases hdec : dec vals with
      | error msg =>
        rw [hdec] at h
        injection h with h
        subst h
        simp [lineErrorSpec, hdec]
      | ok obj =>
        rw [hdec] at h
        cases hrec : read_objects_rows dec fn hs rest with
        | error e2 =>
          rw [hrec] at h
          simp only [Except.map] at h
          injection h with h
          subst h
          have h2 := ih hrec
          cases e2 with
          | CSVError fn2 src lie =>
            cases lie with
            | none => exact h2
            | some le =>
              obtain ⟨ha, hb, hc⟩ := h2
              refine ⟨ha, hb, ?_⟩
              rcases hc with ⟨d1, d2⟩ | ⟨d1, d2⟩
              · exact Or.inl ⟨d1, List.mem_cons_of_mem _ d2⟩
              · exact Or.inr ⟨List.mem_cons_of_mem _ d1, d2⟩
          | FileNotFound s => exact h2
          | FileReadError s => exact h2
          | ReferenceError s => exact h2
          | InvalidColor s => exact h2
          | InvalidTime s => exact h2
          | ParseIntFailure => exact h2
        | ok objs =>
          rw [hrec] at h
          simp [Except.map] at h

/-- A decimal digit is within the ASCII digit code points. -/
theorem decimalDigit_bounds (c : Char) (h : decimalDigit c = true) :
    48 ≤ c.toNat ∧ c.toNat ≤ 57 := by
  simpa [decimalDigit] using h

/-- A decimal digit is not Unicode white space. -/
theorem decimalDigit_not_ws (c : Char) (h : decimalDigit c = true) :
    rustIsWhitespace c = false := by
  obtain ⟨hl, hr⟩ := decimalDigit_bounds c h
  simp only [rustIsWhitespace, Bool.or_eq_false_iff, decide_eq_false_iff_not,
    Bool.and_eq_false_iff, decide_eq_true_eq]
  omega

/-- A decimal digit is not the colon separator. -/
theorem decimalDigit_ne_colon (c : Char) (h : decimalDigit c = true) :
    c ≠ ':' := by
  intro he
  subst he
  exact absurd h (by decide)

/-- A decimal digit is not the plus sign. -/
theorem decimalDigit_ne_plus (c : Char) (h : decimalDigit c = true) :
    c ≠ '+' := by
  intro he
  subst he
  exact absurd h (by decide)

/-- Splitting a separator-free list yields that one piece. -/
theorem splitOnChar_sepFree (c : Char) (l : List Char)
    (h : ∀ x ∈ l, x ≠ c) : splitOnChar c l = [l] := by
  induction l with
  | nil => rfl
  | cons x xs ih =>
    have hx : x ≠ c := h x (List.mem_cons_self x xs)
    simp only [splitOnChar, if_neg hx,
      ih fun y hy => h y (List.mem_cons_of_mem x hy)]

/-- Splitting `l ++ c :: r` for separator-free `l` peels off `l` as the
first piece. -/
theorem splitOnChar_prefixSep (c : Char) (l r : List Char)
    (h : ∀ x ∈ l, x ≠ c) :
    splitOnChar c (l ++ c :: r) = l :: splitOnChar c r := by
  induction l with
  | nil => simp [splitOnChar]
  | cons x xs ih =>
    have hx : x ≠ c := h x (List.mem_cons_self x xs)
    simp only [List.cons_append, splitOnChar, if_neg hx, List.append_eq,
      ih fun y hy => h y (List.mem_cons_of_mem x hy)]

/-- The `u64` parse succeeds on a nonempty all-digit list whose value fits. -/
theorem parseU64_digits (s : List Char) (hne : s ≠ [])
    (hd : ∀ c ∈ s, decimalDigit c = true) (hb : digitsVal s < 2 ^ 64) :
    parseU64 s = some (digitsVal s) := by
  have hhead : ¬(s.head? = some '+') := by
    cases s with
    | nil => simp
    | cons x xs =>
      have hx := hd x (List.mem_cons_self x xs)
      simp only [List.head?, Option.some.injEq]
      exact decimalDigit_ne_plus x hx
  have hall : s.all decimalDigit = true := List.all_eq_true.mpr hd
  simp only [parseU64]
  rw [if_neg hhead, if_neg hne, if_pos hall, if_pos hb]

/-- C6: the clock-time decoder. Every text of the shape
`digits ':' digits ':' digits` (hours unbounded up to the `u64` range, so
`H ≥ 24` is permitted) decodes to `H*3600 + M*60 + S` total seconds; every
text that does not split into exactly three parts fails with an
invalid-time error carrying the original text; and when a part fails the
integer parse, the failure is surfaced as a decode error. -/
theorem deserialize_time_spec :
    (∀ hrs mins secs : List Char, hrs ≠ [] → mins ≠ [] → secs ≠ [] →
      (∀ c ∈ hrs, decimalDigit c = true) →
      (∀ c ∈ mins, decimalDigit c = true) →
      (∀ c ∈ secs, decimalDigit c = true) →
      digitsVal hrs * 3600 + digitsVal mins * 60 + digitsVal secs < 2 ^ 64 →
      deserialize_time (hrs ++ ':' :: (mins ++ ':' :: secs))
        = .ok (digitsVal hrs * 3600 + digitsVal mins * 60 + digitsVal secs)) ∧
    (∀ s : List Char, (splitOnChar ':' (trimStart s)).length ≠ 3 →
      deserialize_time s = .error (.InvalidTime s)) ∧
    (∀ s : List Char, (splitOnChar ':' (trimStart s)).length = 3 →
      parse_time (splitOnChar ':' (trimStart s)) = none →
      deserialize_time s = .error .ParseIntFailure) := by
  refine ⟨?_, ?_, ?_⟩
  · intro hrs mins secs h1 h2 h3 hd1 hd2 hd3 hb
    obtain ⟨c, cs, rfl⟩ : ∃ c cs, hrs = c :: cs := by
      cases hrs with
      | nil => exact absurd rfl h1
      | cons c cs => exact ⟨c, cs, rfl⟩
    have hw : rustIsWhitespace c = false :=
      decimalDigit_not_ws c (hd1 c (List.mem_cons_self c cs))
    have hcolon1 : ∀ y ∈ c :: cs, y ≠ ':' :=
      fun y hy => decimalDigit_ne_colon y (hd1 y hy)
    have hcolon2 : ∀ y ∈ mins, y ≠ ':' :=
      fun y hy => decimalDigit_ne_colon y (hd2 y hy)
    have hcolon3 : ∀ y ∈ secs, y ≠ ':' :=
      fun y hy => decimalDigit_ne_colon y (hd3 y hy)
    have htrim :
        trimStart ((c :: cs) ++ ':' :: (mins ++ ':' :: secs))
          = (c :: cs) ++ ':' :: (mins ++ ':' :: secs) := by
      simp [trimStart, hw]
    have hb2 : digitsVal (c :: cs) * 3600 + digitsVal mins * 60 +
        digitsVal secs < 18446744073709551616 := by
      have hpow : (2 : Nat) ^ 64 = 18446744073709551616 := by norm_num
      rw [hpow] at hb
      exact hb
    have hpt : parse_time [c :: cs, mins, secs]
        = some (digitsVal (c :: cs) * 3600 + digitsVal mins * 60 +
            digitsVal secs) := by
      have e1 := parseU64_digits (c :: cs) h1 hd1 (by norm_num; omega)
      have e2 := parseU64_digits mins h2 hd2 (by norm_num; omega)
      have e3 := parseU64_digits secs h3 hd3 (by norm_num; omega)
      simp [parse_time, e1, e2, e3, Nat.mod_eq_of_lt, hb2]
    simp only [deserialize_time]
    rw [htrim, splitOnChar_prefixSep ':' (c :: cs) _ hcolon1,
        splitOnChar_prefixSep ':' mins _ hcolon2,
        splitOnChar_sepFree ':' secs hcolon3,
        if_neg (by simp), hpt]
  · intro s h
    simp only [deserialize_time]
    rw [if_pos h]
  · intro s h1 h2
    simp only [deserialize_time]
    rw [if_neg (fun hn => hn h1), h2]

/-- Witness for C6 at the concrete text "1:02:03": 3723 total seconds. -/
theorem deserialize_time_spec_witness :
    deserialize_time (['1'] ++ ':' :: (['0', '2'] ++ ':' :: ['0', '3']))
      = .ok (digitsVal ['1'] * 3600 + digitsVal ['0', '2'] * 60 +
          digitsVal ['0', '3']) :=
  deserialize_time_spec.1 ['1'] ['0', '2'] ['0', '3'] (by decide) (by decide)
    (by decide) (by decide) (by decide) (by decide) (by decide)

/-- Witness for the amended C4 statement on a concrete pre-tokenization
failure: the payload has the header names and an empty value list. -/
theorem line_error_payload_amended_witness :
    lineErrorSpec decTwoColumns "trips.txt" ["trip_id", "brigade_id"]
      [RowInput.tokFail "bad utf8"]
      (.CSVError "trips.txt" "bad utf8"
        (some ⟨["trip_id", "brigade_id"], []⟩)) :=
  line_error_payload_amended decTwoColumns "trips.txt"
    ["trip_id", "brigade_id"] [RowInput.tokFail "bad utf8"] _ (by rfl)

/-- Lookup after insert: the inserted key maps to the new value, every
other key is unchanged. -/
theorem lookupAM_insertAM {β : Type} (m : List (String × β)) (key : String)
    (v : β) (q : String) :
    lookupAM (insertAM m key v) q
      = if q = key then some v else lookupAM m q := by
  induction m with
  | nil => simp [insertAM, lookupAM]
  | cons p rest ih =>
    obtain ⟨a, w⟩ := p
    by_cases hka : key = a
    · subst hka
      simp only [insertAM, if_pos rfl, lookupAM]
      by_cases hq : q = key
      · simp [hq]
      · simp [hq]
    · simp only [insertAM, if_neg hka, lookupAM, ih]
      by_cases hqa : q = a
      · have hqk : ¬(q = key) := fun h2 => hka (h2.symm.trans hqa)
        have hak : ¬(a = key) := fun h2 => hka h2.symm
        simp [hqa, hqk, hak]
      · simp [hqa]

/-- Lookup through the per-trip sorting pass. -/
theorem lookupAM_sortTrips (m : List (String × Trip)) (q : String) :
    lookupAM (sortTrips m) q
      = (lookupAM m q).map
          (fun t => { t with stop_times := sortStable t.stop_times }) := by
  induction m with
  | nil => rfl
  | cons p rest ih =>
    obtain ⟨a, t⟩ := p
    simp only [sortTrips] at ih ⊢
    simp only [List.map_cons, lookupAM]
    by_cases hq : q = a
    · simp [hq]
    · simp [hq, ih]

/-- Pushed-list equation for a raw stop time of the requested trip. -/
theorem pushedFor_cons_eq (stops : List (String × Stop)) (r : RawStopTime)
    (rest : List RawStopTime) (tid : String) (stop : Stop)
    (htid : r.trip_id = tid) (hstop : lookupAM stops r.stop_id = some stop) :
    pushedFor stops (r :: rest) tid
      = StopTime.fromRaw r stop :: pushedFor stops rest tid := by
  simp [pushedFor, List.filterMap_cons, htid, hstop]

/-- Pushed-list equation for a raw stop time of another trip. -/
theorem pushedFor_cons_ne (stops : List (String × Stop)) (r : RawStopTime)
    (rest : List RawStopTime) (tid : String) (htid : ¬(r.trip_id = tid)) :
    pushedFor stops (r :: rest) tid = pushedFor stops rest tid := by
  simp [pushedFor, List.filterMap_cons, htid]

/-- After a successful stop-time fold, every trip's sequence is its initial
sequence extended by exactly its raw stop times in input order. -/
theorem linkStopTimes_lookup (stops : List (String × Stop)) :
    ∀ (raws : List RawStopTime) (m m' : List (String × Trip)),
      linkStopTimes stops m raws = .ok m' →
      ∀ tid, lookupAM m' tid = (lookupAM m tid).map
        (fun t => { t with
          stop_times := t.stop_times ++ pushedFor stops raws tid }) := by
  intro raws
  induction raws with
  | nil =>
    intro m m' h tid
    simp only [linkStopTimes] at h
    injection h with h
    subst h
    cases hl : lookupAM m tid <;> simp [pushedFor]
  | cons raw rest ih =>
    intro m m' h tid
    simp only [linkStopTimes] at h
    cases htr : lookupAM m raw.trip_id with
    | none => rw [htr] at h; exact Except.noConfusion h
    | some trip =>
      rw [htr] at h
      cases hst : lookupAM stops raw.stop_id with
      | none => rw [hst] at h; exact Except.noConfusion h
      | some stop =>
        rw [hst] at h
        have ih2 := ih _ _ h tid
        rw [ih2, lookupAM_insertAM]
        by_cases htid : tid = raw.trip_id
        · subst htid
          rw [if_pos rfl, htr,
            pushedFor_cons_eq stops raw rest raw.trip_id stop rfl hst]
          simp
        · rw [if_neg htid,
            pushedFor_cons_ne stops raw rest tid (fun h2 => htid h2.symm)]

/-- A successful map lookup is a membership. -/
theorem lookupAM_mem {β : Type} (m : List (String × β)) (k : String) (v : β)
    (h : lookupAM m k = some v) : (k, v) ∈ m := by
  induction m with
  | nil => simp [lookupAM] at h
  | cons p rest ih =>
    obtain ⟨a, w⟩ := p
    simp only [lookupAM] at h
    by_cases hk : k = a
    · rw [if_pos hk] at h
      injection h with h
      subst hk
      subst h
      exact List.mem_cons_self _ _
    · rw [if_neg hk] at h
      exact List.mem_cons_of_mem _ (ih h)

/-- Members after insert come from the original map or are the insertion. -/
theorem mem_insertAM {β : Type} (m : List (String × β)) (key : String)
    (v : β) (p : String × β) (h : p ∈ insertAM m key v) :
    p ∈ m ∨ p = (key, v) := by
  induction m with
  | nil =>
    simp only [insertAM, List.mem_singleton] at h
    exact Or.inr h
  | cons q rest ih =>
    obtain ⟨a, w⟩ := q
    simp only [insertAM] at h
    by_cases hk : key = a
    · rw [if_pos hk] at h
      subst hk
      rcases List.mem_cons.mp h with h1 | h1
      · exact Or.inr h1
      · exact Or.inl (List.mem_cons_of_mem _ h1)
    · rw [if_neg hk] at h
      rcases List.mem_cons.mp h with h1 | h1
      · exact Or.inl (h1 ▸ List.mem_cons_self _ _)
      · rcases ih h1 with h2 | h2
        · exact Or.inl (List.mem_cons_of_mem _ h2)
        · exact Or.inr h2

/-- Members of an id-keyed fold come from the accumulator or the input. -/
theorem mem_foldl_insertAM {β : Type} (idOf : β → String) (l : List β) :
    ∀ (acc : List (String × β)) (p : String × β),
      p ∈ l.foldl (fun m e => insertAM m (idOf e) e) acc →
      p ∈ acc ∨ ∃ e ∈ l, p = (idOf e, e) := by
  induction l with
  | nil => intro acc p h; exact Or.inl h
  | cons x xs ih =>
    intro acc p h
    simp only [List.foldl_cons] at h
    rcases ih _ p h with h1 | h1
    · rcases mem_insertAM _ _ _ _ h1 with h2 | h2
      · exact Or.inl h2
      · exact Or.inr ⟨x, List.mem_cons_self x xs, h2⟩
    · obtain ⟨e, he, hp⟩ := h1
      exact Or.inr ⟨e, List.mem_cons_of_mem x he, hp⟩

/-- Every trip of the initial trip map starts with no stop times. -/
theorem tripsMap_stop_times_nil (rts : List RawTrip) (tid : String) (t : Trip)
    (h : lookupAM (tripsMap rts) tid = some t) : t.stop_times = [] := by
  have hm := lookupAM_mem _ _ _ h
  simp only [tripsMap, to_map] at hm
  rcases mem_foldl_insertAM Trip.id (rts.map Trip.fromRaw) [] _ hm with h1 | h1
  · simp at h1
  · obtain ⟨e, he, hp⟩ := h1
    obtain ⟨rt, hrt, rfl⟩ := List.mem_map.mp he
    have h2 : t = Trip.fromRaw rt := congrArg Prod.snd hp
    rw [h2]
    rfl

/-- Membership in a stable insertion. -/
theorem mem_sortInsert (x y : StopTime) (l : List StopTime) :
    y ∈ sortInsert x l ↔ y = x ∨ y ∈ l := by
  induction l with
  | nil => simp [sortInsert]
  | cons z zs ih =>
    simp only [sortInsert]
    by_cases hc : x.stop_sequence ≤ z.stop_sequence
    · rw [if_pos hc]
      simp only [List.mem_cons]
    · rw [if_neg hc]
      simp only [List.mem_cons, ih]
      tauto

/-- Stable insertion preserves sortedness by `stop_sequence`. -/
theorem sortInsert_pairwise (x : StopTime) (l : List StopTime)
    (h : l.Pairwise fun a b => a.stop_sequence ≤ b.stop_sequence) :
    (sortInsert x l).Pairwise
      fun a b => a.stop_sequence ≤ b.stop_sequence := by
  induction l with
  | nil => simp [sortInsert]
  | cons z zs ih =>
    rw [List.pairwise_cons] at h
    obtain ⟨hz, hzs⟩ := h
    simp only [sortInsert]
    by_cases hc : x.stop_sequence ≤ z.stop_sequence
    · rw [if_pos hc]
      refine List.Pairwise.cons ?_ (List.Pairwise.cons hz hzs)
      intro y hy
      rcases List.mem_cons.mp hy with rfl | hy2
      · exact hc
      · exact le_trans hc (hz y hy2)
    · rw [if_neg hc]
      refine List.Pairwise.cons ?_ (ih hzs)
      intro y hy
      rcases (mem_sortInsert x y zs).mp hy with rfl | hy2
      · omega
      · exact hz y hy2

/-- The whole stable sort is sorted by `stop_sequence`. -/
theorem sortStable_pairwise (l : List StopTime) :
    (sortStable l).Pairwise
      fun a b => a.stop_sequence ≤ b.stop_sequence := by
  induction l with
  | nil => simp [sortStable]
  | cons x xs ih => exact sortInsert_pairwise x _ ih

/-- Stability of the insertion: restricted to one key value, insertion is
plain cons, so relative order of equal keys is preserved. -/
theorem filter_sortInsert (x : StopTime) (l : List StopTime) (k : Nat) :
    (sortInsert x l).filter (fun st => st.stop_sequence == k)
      = (x :: l).filter (fun st => st.stop_sequence == k) := by
  induction l with
  | nil => rfl
  | cons z zs ih =>
    simp only [sortInsert]
    by_cases hc : x.stop_sequence ≤ z.stop_sequence
    · rw [if_pos hc]
    · rw [if_neg hc]
      cases hxk : x.stop_sequence == k with
      | true =>
        have hxe : x.stop_sequence = k := by simpa using hxk
        have hzk : (z.stop_sequence == k) = false := by
          simp only [beq_eq_false_iff_ne, ne_eq]
          omega
        simp [List.filter_cons, hxk, hzk, ih]
      | false =>
        simp only [List.filter_cons, hxk, ih]
        cases hzk : z.stop_sequence == k <;>
          simp [List.filter_cons, hzk, hxk]

/-- Restricted to one key value, the stable sort is the identity. -/
theorem filter_sortStable (l : List StopTime) (k : Nat) :
    (sortStable l).filter (fun st => st.stop_sequence == k)
      = l.filter (fun st => st.stop_sequence == k) := by
  induction l with
  | nil => rfl
  | cons x xs ih =>
    simp only [sortStable]
    rw [filter_sortInsert]
    simp [List.filter_cons, ih]

/-- C2: after a successful linking pass, every linked trip's stop-time
sequence is non-decreasing in `stop_sequence`, and its stop times of any
fixed `stop_sequence` value appear exactly in the order their rows appeared
in the raw stop-time input (stable sort). -/
theorem trips_sorted_stable (rts : List RawTrip) (raws : List RawStopTime)
    (stops : List Stop) (m : List (String × Trip))
    (h : createTrips rts raws stops = .ok m) (tid : String) (trip : Trip)
    (ht : lookupAM m tid = some trip) :
    trip.stop_times.Pairwise
      (fun a b => a.stop_sequence ≤ b.stop_sequence) ∧
    ∀ k : Nat, trip.stop_times.filter (fun st => st.stop_sequence == k)
      = (pushedFor (stopsMap stops) raws tid).filter
          (fun st => st.stop_sequence == k) := by
  unfold createTrips at h
  cases hlink : linkStopTimes (stopsMap stops) (tripsMap rts) raws with
  | error e => rw [hlink] at h; exact Except.noConfusion h
  | ok m1 =>
    rw [hlink] at h
    injection h with h
    subst h
    rw [lookupAM_sortTrips] at ht
    cases hl1 : lookupAM m1 tid with
    | none => rw [hl1] at ht; exact Option.noConfusion ht
    | some t1 =>
      rw [hl1] at ht
      injection ht with ht
      have hlk := linkStopTimes_lookup (stopsMap stops) raws _ _ hlink tid
      rw [hl1] at hlk
      cases hl0 : lookupAM (tripsMap rts) tid with
      | none => rw [hl0] at hlk; exact Option.noConfusion hlk
      | some t0 =>
        rw [hl0] at hlk
        injection hlk with hlk
        have h0 : t0.stop_times = [] := tripsMap_stop_times_nil rts tid t0 hl0
        have ht1 : t1.stop_times = pushedFor (stopsMap stops) raws tid := by
          rw [hlk]
          show t0.stop_times ++ pushedFor (stopsMap stops) raws tid
            = pushedFor (stopsMap stops) raws tid
          rw [h0]
          rfl
        have hst : trip.stop_times = sortStable t1.stop_times :=
          (congrArg Trip.stop_times ht).symm
        constructor
        · rw [hst]
          exact sortStable_pairwise _
        · intro k
          rw [hst, filter_sortStable, ht1]

/-- Witness for C2 on the fixture dataset: trip1 has two stop times of equal
`stop_sequence`, kept in raw input order. -/
theorem trips_sorted_stable_witness :
    trip0.stop_times.Pairwise
      (fun a b => a.stop_sequence ≤ b.stop_sequence) ∧
    trip0.stop_times.filter (fun st => st.stop_sequence == 0)
      = (pushedFor (stopsMap stops0) raws0 "trip1").filter
          (fun st => st.stop_sequence == 0) := by
  have h := trips_sorted_stable rt0 raws0 stops0 m0 (by rfl) "trip1" trip0
    (by rfl)
  exact ⟨h.1, h.2 0⟩

/-- The stop-time fold fails with the first reference error when one
exists, whatever the current values of the (same-domain) trip map are. -/
theorem linkStopTimes_error (stops : List (String × Stop))
    (trips0 : List (String × Trip)) :
    ∀ (raws : List RawStopTime) (m : List (String × Trip)) (e : String),
      (∀ k, (lookupAM m k).isSome = (lookupAM trips0 k).isSome) →
      firstRefError trips0 stops raws = some e →
      linkStopTimes stops m raws = .error (.ReferenceError e) := by
  intro raws
  induction raws with
  | nil => intro m e hdom h; simp [firstRefError] at h
  | cons raw rest ih =>
    intro m e hdom h
    simp only [firstRefError] at h
    cases htr : lookupAM trips0 raw.trip_id with
    | none =>
      rw [htr] at h
      injection h with h
      subst h
      have hmn : lookupAM m raw.trip_id = none := by
        have hd := hdom raw.trip_id
        rw [htr] at hd
        cases hm2 : lookupAM m raw.trip_id with
        | none => rfl
        | some t => rw [hm2] at hd; simp at hd
      simp [linkStopTimes, hmn]
    | some t0 =>
      rw [htr] at h
      have hm : ∃ t, lookupAM m raw.trip_id = some t := by
        have hd := hdom raw.trip_id
        rw [htr] at hd
        cases hm2 : lookupAM m raw.trip_id with
        | none => rw [hm2] at hd; simp at hd
        | some t => exact ⟨t, rfl⟩
      obtain ⟨t, hmt⟩ := hm
      cases hst : lookupAM stops raw.stop_id with
      | none =>
        rw [hst] at h
        injection h with h
        subst h
        simp [linkStopTimes, hmt, hst]
      | some stop =>
        rw [hst] at h
        simp only [linkStopTimes, hmt, hst]
        apply ih
        · intro k
          rw [lookupAM_insertAM]
          by_cases hk : k = raw.trip_id
          · subst hk
            rw [if_pos rfl, htr]
            rfl
          · rw [if_neg hk]
            exact hdom k
        · exact h

/-- The first reference error names the missing foreign key of one of the
input rows. -/
theorem firstRefError_mem (trips : List (String × Trip))
    (stops : List (String × Stop)) :
    ∀ (raws : List RawStopTime) (e : String),
      firstRefError trips stops raws = some e →
      ∃ r ∈ raws, (lookupAM trips r.trip_id = none ∧ e = r.trip_id) ∨
                  (lookupAM stops r.stop_id = none ∧ e = r.stop_id) := by
  intro raws
  induction raws with
  | nil => intro e h; simp [firstRefError] at h
  | cons raw rest ih =>
    intro e h
    simp only [firstRefError] at h
    cases htr : lookupAM trips raw.trip_id with
    | none =>
      rw [htr] at h
      injection h with h
      exact ⟨raw, List.mem_cons_self _ _, Or.inl ⟨htr, h.symm⟩⟩
    | some t =>
      rw [htr] at h
      cases hst : lookupAM stops raw.stop_id with
      | none =>
        rw [hst] at h
        injection h with h
        exact ⟨raw, List.mem_cons_self _ _, Or.inr ⟨hst, h.symm⟩⟩
      | some s =>
        rw [hst] at h
        obtain ⟨r, hr, hor⟩ := ih e h
        exact ⟨r, List.mem_cons_of_mem _ hr, hor⟩

/-- C3: when some raw stop time references an unknown trip or stop, the
linking pass returns exactly a reference error carrying the first such
missing identifier — which is the missing foreign key of one of the raw
rows — and no trip mapping is returned on that path. -/
theorem link_reference_error (rts : List RawTrip) (raws : List RawStopTime)
    (stops : List Stop) (e : String)
    (h : firstRefError (tripsMap rts) (stopsMap stops) raws = some e) :
    createTrips rts raws stops = .error (.ReferenceError e) ∧
    ∃ r ∈ raws, (lookupAM (tripsMap rts) r.trip_id = none ∧ e = r.trip_id) ∨
                (lookupAM (stopsMap stops) r.stop_id = none ∧ e = r.stop_id) := by
  constructor
  · have hl := linkStopTimes_error (stopsMap stops) (tripsMap rts) raws
      (tripsMap rts) e (fun k => rfl) h
    unfold createTrips
    rw [hl]
  · exact firstRefError_mem _ _ raws e h

/-- Witness for C3 on the fixture dataset with a stop time of the unknown
trip id "ghost". -/
theorem link_reference_error_witness :
    createTrips rt0 rawsBad stops0 = .error (.ReferenceError "ghost") :=
  (link_reference_error rt0 rawsBad stops0 "ghost" (by rfl)).1

end Gtfs
